import Mathlib

/-!
Verification of the client-side library logic of the digital-library web
application (item filtering and free-text search, item deletion, and the
normalization adapters for Google Books volumes and Gemini AI cover-scan
responses).

The definitions below are shallow embeddings of the JavaScript source:

  * `src/UI/script.js`: `applyFilters` (lines 524-588), `performSearch`
    (1917-1939), `performOverlaySearch` (3617-3658), `deleteLibraryItem`
    (1769-1825), and `GoogleBooksService.transformResults` (175-198);
  * the server-side services (`src/unnamed/part_001`):
    `GoogleBooksService.extractISBN` (120-127), and
    `GeminiService.parseGeminiResponse` / `fallbackTextParsing` (273-343),
    together with a model of `JSON.parse` and of the greedy regex
    `/\x7b[\s\S]*\x7d/` that `parseGeminiResponse` uses.

JavaScript conventions used throughout the embedding:

  * a possibly-`undefined` object field is an `Option`;
  * JS numbers that the code keeps fractional (item ratings) are `Rat`,
    integer-valued ones are `Int`;
  * truthiness is modelled per type (`none`/`0`/`""` are falsy);
  * a thrown `TypeError` (method call on `undefined`) is `Except.error`;
  * `parseInt` is modelled for base-10 inputs (`jsParseInt`); string
    methods (`toLowerCase`, `includes`, `trim`, `split`) are modelled on
    Lean strings, ASCII-faithfully.
-/

namespace EIH

/-! ### JavaScript string and number primitives -/

/-- Characters that `parseInt` skips before the number (the common JS
whitespace set, ASCII part). -/
def jsIsSpace (c : Char) : Bool :=
  c = ' ' || c = '\t' || c = '\n' || c = '\r' || c = '\x0b' || c = '\x0c'

/-- Decimal digit run to a natural number. -/
def digitsToNat (ds : List Char) : Nat :=
  ds.foldl (fun acc c => acc * 10 + (c.toNat - '0'.toNat)) 0

/-- JS `parseInt(s)` for base-10 inputs: skip whitespace, optional sign,
then the leading digit run; `none` models `NaN` (no digits). -/
def jsParseInt (cs : List Char) : Option Int :=
  let cs1 := cs.dropWhile jsIsSpace
  let signed : List Char → Option Int := fun r =>
    let ds := r.takeWhile Char.isDigit
    if ds.isEmpty then none else some (digitsToNat ds : Int)
  match cs1 with
  | '-' :: r => (signed r).map (fun n => -n)
  | '+' :: r => signed r
  | _ => signed cs1

/-- JS `String.prototype.toLowerCase`, ASCII-faithfully. -/
def jsToLower (s : String) : String := ⟨s.data.map Char.toLower⟩

/-- JS `String.prototype.trim` (ASCII whitespace set). -/
def jsTrim (s : String) : String :=
  ⟨((s.data.dropWhile jsIsSpace).reverse.dropWhile jsIsSpace).reverse⟩

/-- JS `String.prototype.split` with a one-character separator: the
list of (possibly empty) segments between occurrences. -/
def splitOnChar (sep : Char) : List Char → List (List Char)
  | [] => [[]]
  | c :: r =>
    match splitOnChar sep r with
    | h :: t => if c = sep then [] :: h :: t else (c :: h) :: t
    | [] => [[c]]

/-- The split of `splitOnChar`, on strings. -/
def strSplitOnChar (sep : Char) (s : String) : List String :=
  (splitOnChar sep s.data).map (fun l => ⟨l⟩)

/-- Substring search: does `needle` occur contiguously in the haystack? -/
def occursWithin (needle : List Char) : List Char → Bool
  | [] => needle.isPrefixOf []
  | c :: t => needle.isPrefixOf (c :: t) || occursWithin needle t

/-- JS `haystack.includes(needle)`: substring containment. -/
def strIncludes (hay needle : String) : Bool := occursWithin needle.data hay.data

/-! ### The LibraryItem data model (`src/UI/script.js`)

Items live in the in-memory `libraryItems` array. An absent field is
`none`. `id` is a string or an integer (the spec's "opaque id"). -/

/-- An item id: the code compares ids with `===`, so a string id and a
numeric id never match each other. -/
inductive JsId where
  | str (s : String)
  | num (n : Int)
deriving DecidableEq

/-- The flat LibraryItem record, restricted to the fields the filter,
search and delete paths read. `none` is JS `undefined`. -/
structure LibraryItem where
  id : JsId
  title : Option String := none
  author : Option String := none
  category : Option String := none
  type : Option String := none
  language : Option String := none
  status : Option String := none
  rating : Option Rat := none
  difficulty : Option Int := none
  publishingYear : Option Int := none
  year : Option Int := none
deriving DecidableEq

/-- The global `activeFilters` object: each field is `"all"` (disabled)
or a concrete filter value, exactly as the DOM `data-value` strings. -/
structure ActiveFilters where
  type : String
  status : String
  rating : String
  difficulty : String
  language : String
  category : String
deriving DecidableEq

/-- The all-`"all"` configuration `script.js` resets to. -/
def allFiltersOff : ActiveFilters :=
  ⟨"all", "all", "all", "all", "all", "all"⟩

/-- The rating clause of `applyFilters` (script.js 539-545): with an
active rating filter the item is rejected when `!item.rating` (absent or
zero, both falsy) or `item.rating < parseInt(activeFilters.rating)`; a
`NaN` threshold rejects nothing, because `<` on `NaN` is false. -/
def ratingRejects (fv : String) (r : Option Rat) : Bool :=
  match r with
  | none => true
  | some q =>
    if q = 0 then true
    else
      match jsParseInt fv.data with
      | some t => decide (q < (mkRat t 1))
      | none => false

/-- The difficulty clause of `applyFilters` (script.js 547-561):
`!item.difficulty` (absent or zero) rejects; otherwise the three bucket
tests run in order, and an unknown bucket name rejects nothing. -/
def difficultyRejects (fv : String) (d : Option Int) : Bool :=
  match d with
  | none => true
  | some n =>
    if n = 0 then true
    else if fv = "easy" && (decide (n < 1) || decide (n > 3)) then true
    else if fv = "medium" && (decide (n < 4) || decide (n > 7)) then true
    else if fv = "hard" && (decide (n < 8) || decide (n > 10)) then true
    else false

/-- The per-item predicate of `applyFilters` (script.js 528-574): the
early-return chain over type, status, rating, difficulty, language and
category. A missing field never equals a concrete filter value. -/
def itemPassesFilters (f : ActiveFilters) (item : LibraryItem) : Bool :=
  if f.type ≠ "all" && item.type ≠ some f.type then false
  else if f.status ≠ "all" && item.status ≠ some f.status then false
  else if f.rating ≠ "all" && ratingRejects f.rating item.rating then false
  else if f.difficulty ≠ "all" && difficultyRejects f.difficulty item.difficulty then false
  else if f.language ≠ "all" && item.language ≠ some f.language then false
  else if f.category ≠ "all" && item.category ≠ some f.category then false
  else true

/-- The function `applyFilters` (script.js 524-588), restricted to the collection
transformation it performs: `libraryItems.filter(item => ...)`. The
surrounding display update and notification do not touch the array, and
`Array.prototype.filter` returns a fresh array, so the input collection
is never mutated. -/
def applyFilters (f : ActiveFilters) (items : List LibraryItem) : List LibraryItem :=
  items.filter (itemPassesFilters f)

/-! ### Free-text search (`performSearch`, script.js 1917-1939)

`performSearch` accesses `item.title/.author/.category/.type` without a
guard and calls `.toLowerCase()` on them, so an absent field throws a
`TypeError` as soon as the `||`-chain reaches it; `Array.prototype.filter`
propagates the exception out of `performSearch`. The embedding therefore
lives in `Except`. -/

/-- A thrown JS exception along these code paths (only `TypeError`, from a
method call on `undefined`). -/
inductive JsError where
  | typeError
deriving DecidableEq

/-- The search predicate of `performSearch` (script.js 1930-1935): the
`||`-chain over lowered title, author, category and type, with JS
short-circuiting (a later field is not touched when an earlier one
already matched) — and a `TypeError` when `.toLowerCase()` is reached on
an absent (`undefined`) field. -/
def searchMatches (searchTerm : String) (item : LibraryItem) : Except JsError Bool :=
  match item.title with
  | none => .error .typeError
  | some t =>
    if strIncludes (jsToLower t) searchTerm then .ok true
    else
      match item.author with
      | none => .error .typeError
      | some a =>
        if strIncludes (jsToLower a) searchTerm then .ok true
        else
          match item.category with
          | none => .error .typeError
          | some c =>
            if strIncludes (jsToLower c) searchTerm then .ok true
            else
              match item.type with
              | none => .error .typeError
              | some ty => .ok (strIncludes (jsToLower ty) searchTerm)

/-- JS `Array.prototype.filter` with a throwing predicate: items are tested
in order and the first exception aborts the whole call. -/
def filterExcept {α ε : Type} (p : α → Except ε Bool) : List α → Except ε (List α)
  | [] => .ok []
  | a :: l =>
    match p a with
    | .error e => .error e
    | .ok b =>
      match filterExcept p l with
      | .error e => .error e
      | .ok r => .ok (if b then a :: r else r)

/-- What the search-results pane ends up showing. -/
inductive SearchDisplay where
  | prompt
  | noResults
  | results (items : List LibraryItem)
deriving DecidableEq

/-- The function `performSearch` (script.js 1917-1939): a falsy (empty) search term
short-circuits to the "Enter a search term to find items in your
library." prompt; otherwise the collection is filtered and
`displaySearchResults` shows either the "No items found" message or the
result items. -/
def performSearch (searchTerm : String) (libraryItems : List LibraryItem) :
    Except JsError SearchDisplay :=
  if searchTerm = "" then .ok .prompt
  else
    match filterExcept (searchMatches searchTerm) libraryItems with
    | .error e => .error e
    | .ok results => .ok (if results.isEmpty then .noResults else .results results)

/-- The search-box input handler (script.js 1906-1912): the raw input
value is lowercased and trimmed before `performSearch` runs, so a
whitespace-only input reaches `performSearch` as the empty string. -/
def searchInputValue (raw : String) : String := jsTrim (jsToLower raw)

/-- The per-item match test of `performOverlaySearch` (script.js
3631-3652): optional chaining (`?.`) makes an absent field a non-match
instead of an exception; the year test accepts either `publishingYear`
or `year` rendered with `toString()`. -/
def overlayItemMatches (searchTerm : String) (item : LibraryItem) : Bool :=
  (match item.title with | some t => strIncludes (jsToLower t) searchTerm | none => false) ||
  (match item.author with | some a => strIncludes (jsToLower a) searchTerm | none => false) ||
  (match item.category with | some c => strIncludes (jsToLower c) searchTerm | none => false) ||
  (match item.type with | some ty => strIncludes (jsToLower ty) searchTerm | none => false) ||
  (match item.publishingYear with | some n => strIncludes (toString n) searchTerm | none => false) ||
  (match item.year with | some n => strIncludes (toString n) searchTerm | none => false)

/-- The function `performOverlaySearch` (script.js 3617-3658), as the per-item
`search-match` highlight flags (one per library item, in collection
order): an empty or whitespace-only query clears every flag; otherwise
the lowercased, trimmed query is matched against each item. -/
def performOverlaySearch (query : String) (items : List LibraryItem) : List Bool :=
  if query = "" || jsTrim query = "" then items.map (fun _ => false)
  else
    let searchTerm := jsTrim (jsToLower query)
    items.map (overlayItemMatches searchTerm)

/-! ### Deletion (`deleteLibraryItem`, script.js 1769-1825) -/

/-- The user-visible outcome of a delete call: the early-return error
notifications, or the success notification after the splice. -/
inductive DeleteOutcome where
  | notFound
  | remoteError
  | deleted
deriving DecidableEq

/-- JS `Array.prototype.findIndex` (`-1` modelled as `none`). -/
def jsFindIndex {α : Type} (p : α → Bool) : List α → Option Nat
  | [] => none
  | a :: l => if p a then some 0 else (jsFindIndex p l).map (· + 1)

/-- The function `deleteLibraryItem` (script.js 1769-1825) on the in-memory array:
an id that matches no item returns early with an error notification; an
authenticated session whose Supabase delete fails (`remoteOk = false`)
returns early inside the `catch`; every other path splices exactly the
found index out of the array. The localStorage write-back mirrors the
returned array and is not modelled separately. -/
def deleteLibraryItem (items : List LibraryItem) (itemId : JsId)
    (authed remoteOk : Bool) : List LibraryItem × DeleteOutcome :=
  match jsFindIndex (fun item => item.id = itemId) items with
  | none => (items, .notFound)
  | some i =>
    if authed && !remoteOk then (items, .remoteError)
    else (items.take i ++ items.drop (i + 1), .deleted)

/-! ### Google Books normalization (`extractISBN` and the frontend
`transformResults`) -/

/-- One entry of a Google Books volume's `industryIdentifiers` array. -/
structure IndustryIdentifier where
  type : String
  identifier : String
deriving DecidableEq

/-- The function `GoogleBooksService.extractISBN` (part_001 120-127): a missing or
non-array argument gives `null`; otherwise the first `ISBN_13` entry
wins, then the first `ISBN_10` entry, then `null`. -/
def extractISBN (identifiers : Option (List IndustryIdentifier)) : Option String :=
  match identifiers with
  | none => none
  | some ids =>
    match ids.find? (fun i => i.type = "ISBN_13") with
    | some isbn13 => some isbn13.identifier
    | none =>
      match ids.find? (fun i => i.type = "ISBN_10") with
      | some isbn10 => some isbn10.identifier
      | none => none

/-- The isbn field of the frontend `transformResults` (script.js
180-182): `find(ISBN_13)?.identifier || find(ISBN_10)?.identifier ||
'No ISBN'`, where `||` also skips an empty-string identifier (falsy). -/
def transformResultsIsbn (identifiers : Option (List IndustryIdentifier)) : String :=
  let pick : String → Option String := fun ty =>
    match identifiers with
    | none => none
    | some ids =>
      match ids.find? (fun i => i.type = ty) with
      | some e => if e.identifier = "" then none else some e.identifier
      | none => none
  match pick "ISBN_13" with
  | some s => s
  | none =>
    match pick "ISBN_10" with
    | some s => s
    | none => "No ISBN"

/-! ### A model of `JSON.parse`

`GeminiService.parseGeminiResponse` runs `JSON.parse` on the span its
regex extracts. The grammar below is RFC 8259 JSON as `JSON.parse`
accepts it: the four whitespace characters, `null`/`true`/`false`,
strings with the eight short escapes and `\uXXXX`, arrays, objects
(duplicate keys keep the last binding), and numbers without leading
zeros. A number is kept as its source lexeme, which is exact and is all
the downstream code (truthiness and `parseInt`) inspects. -/

/-- A parsed JSON value. -/
inductive Json where
  | null
  | bool (b : Bool)
  | num (lexeme : String)
  | str (s : String)
  | arr (elements : List Json)
  | obj (members : List (String × Json))

/-- JSON's whitespace: space, tab, line feed, carriage return. -/
def isJsonWs (c : Char) : Bool := c = ' ' || c = '\t' || c = '\n' || c = '\r'

/-- Drop leading JSON whitespace. -/
def skipJsonWs (cs : List Char) : List Char := cs.dropWhile isJsonWs

/-- Hexadecimal digit value, via code points (48-57 are the digits,
97-102 lowercase a-f, 65-70 uppercase A-F). -/
def hexVal (c : Char) : Option Nat :=
  let n := c.toNat
  if 48 ≤ n ∧ n ≤ 57 then some (n - 48)
  else if 97 ≤ n ∧ n ≤ 102 then some (n - 87)
  else if 65 ≤ n ∧ n ≤ 70 then some (n - 55)
  else none

/-- The eight single-character JSON string escapes. -/
def unescapeChar (c : Char) : Option Char :=
  match c with
  | '"' => some '"'
  | '\\' => some '\\'
  | '/' => some '/'
  | 'b' => some '\x08'
  | 'f' => some '\x0c'
  | 'n' => some '\n'
  | 'r' => some '\r'
  | 't' => some '\t'
  | _ => none

/-- Lex a JSON string body after the opening quote; unescaped control
characters are rejected, as `JSON.parse` rejects them. -/
def lexJsonString (acc : List Char) : List Char → Option (String × List Char)
  | '"' :: r => some (⟨acc.reverse⟩, r)
  | '\\' :: 'u' :: a :: b :: c :: d :: r =>
    match hexVal a, hexVal b, hexVal c, hexVal d with
    | some va, some vb, some vc, some vd =>
      lexJsonString (Char.ofNat (((va * 16 + vb) * 16 + vc) * 16 + vd) :: acc) r
    | _, _, _, _ => none
  | '\\' :: e :: r =>
    match unescapeChar e with
    | some ch => lexJsonString (ch :: acc) r
    | none => none
  | c :: r => if c.toNat < 32 then none else lexJsonString (c :: acc) r
  | [] => none

/-- Optional fraction part of a JSON number, appended to the lexeme. -/
def lexFrac (acc : List Char) (cs : List Char) : Option (List Char × List Char) :=
  match cs with
  | '.' :: r =>
    let ds := r.takeWhile Char.isDigit
    if ds.isEmpty then none else some (acc ++ '.' :: ds, r.dropWhile Char.isDigit)
  | _ => some (acc, cs)

/-- Optional exponent part of a JSON number, appended to the lexeme. -/
def lexExp (acc : List Char) (cs : List Char) : Option (List Char × List Char) :=
  match cs with
  | e :: r =>
    if e = 'e' || e = 'E' then
      let (sgn, r1) :=
        match r with
        | '+' :: r2 => ((['+'] : List Char), r2)
        | '-' :: r2 => ((['-'] : List Char), r2)
        | _ => ([], r)
      let ds := r1.takeWhile Char.isDigit
      if ds.isEmpty then none
      else some (acc ++ e :: (sgn ++ ds), r1.dropWhile Char.isDigit)
    else some (acc, cs)
  | [] => some (acc, cs)

/-- Fraction then exponent, packaging the finished lexeme. -/
def lexNumTail (acc : List Char) (cs : List Char) : Option (String × List Char) :=
  match lexFrac acc cs with
  | some (a2, r2) =>
    match lexExp a2 r2 with
    | some (a3, r3) => some (⟨a3⟩, r3)
    | none => none
  | none => none

/-- Lex a JSON number (optional minus; integer part without leading
zeros; optional fraction and exponent), keeping the source lexeme. -/
def lexJsonNumber (cs : List Char) : Option (String × List Char) :=
  let (sgn, cs1) :=
    match cs with
    | '-' :: r => ((['-'] : List Char), r)
    | _ => ([], cs)
  match cs1 with
  | c :: r =>
    if c = '0' then lexNumTail (sgn ++ [c]) r
    else if c.isDigit then
      lexNumTail (sgn ++ c :: r.takeWhile Char.isDigit) (r.dropWhile Char.isDigit)
    else none
  | [] => none

mutual

/-- Parse one JSON value (fuel-indexed recursive descent; leading
whitespace is consumed here). -/
def parseJsonVal : Nat → List Char → Option (Json × List Char)
  | 0, _ => none
  | fuel + 1, cs =>
    match skipJsonWs cs with
    | 'n' :: 'u' :: 'l' :: 'l' :: r => some (.null, r)
    | 't' :: 'r' :: 'u' :: 'e' :: r => some (.bool true, r)
    | 'f' :: 'a' :: 'l' :: 's' :: 'e' :: r => some (.bool false, r)
    | '"' :: r => (lexJsonString [] r).map (fun p => (.str p.1, p.2))
    | '{' :: r =>
      match skipJsonWs r with
      | '}' :: r2 => some (.obj [], r2)
      | r2 => (parseJsonMembers fuel r2).map (fun p => (.obj p.1, p.2))
    | '[' :: r =>
      match skipJsonWs r with
      | ']' :: r2 => some (.arr [], r2)
      | r2 => (parseJsonElems fuel r2).map (fun p => (.arr p.1, p.2))
    | c :: r =>
      if c = '-' || c.isDigit then
        (lexJsonNumber (c :: r)).map (fun p => (.num p.1, p.2))
      else none
    | [] => none

/-- Parse the comma-separated elements of a non-empty array, through the
closing bracket. -/
def parseJsonElems : Nat → List Char → Option (List Json × List Char)
  | 0, _ => none
  | fuel + 1, cs =>
    match parseJsonVal fuel cs with
    | some (v, r) =>
      match skipJsonWs r with
      | ',' :: r2 => (parseJsonElems fuel r2).map (fun p => (v :: p.1, p.2))
      | ']' :: r2 => some ([v], r2)
      | _ => none
    | none => none

/-- Parse the members of a non-empty object, through the closing brace. -/
def parseJsonMembers : Nat → List Char → Option (List (String × Json) × List Char)
  | 0, _ => none
  | fuel + 1, cs =>
    match skipJsonWs cs with
    | '"' :: r =>
      match lexJsonString [] r with
      | some (key, r1) =>
        match skipJsonWs r1 with
        | ':' :: r2 =>
          match parseJsonVal fuel r2 with
          | some (v, r3) =>
            match skipJsonWs r3 with
            | ',' :: r4 => (parseJsonMembers fuel r4).map (fun p => ((key, v) :: p.1, p.2))
            | '}' :: r4 => some ([(key, v)], r4)
            | _ => none
          | none => none
        | _ => none
      | none => none
    | _ => none

end

/-- Model of `JSON.parse`: a whole-input parse; only whitespace may follow the
value. The fuel `2·|cs| + 8` is ample: any two consecutive recursive
calls consume at least one input character. -/
def parseJson (cs : List Char) : Option Json :=
  match parseJsonVal (2 * cs.length + 8) cs with
  | some (j, r) => if (skipJsonWs r).isEmpty then some j else none
  | none => none

/-! ### Gemini response normalization (`part_001` 273-343) -/

/-- The prefix of a list up to and including its last `'\x7d'`-brace
(empty when there is none). -/
def upToLastBrace (cs : List Char) : List Char :=
  (cs.reverse.dropWhile (fun c => c ≠ '}')).reverse

/-- The JS regex `responseText.match(/\x7b[\s\S]*\x7d/)`: a greedy match
running from the first `'\x7b'` of the text to the last `'\x7d'`; it
exists iff some closing brace follows the first opening brace. -/
def greedyBraceMatch (cs : List Char) : Option (List Char) :=
  let t := cs.dropWhile (fun c => c ≠ '{')
  let m := upToLastBrace t
  if 2 ≤ m.length then some m else none

/-- The `year`/`confidence` fields after normalization: JS `null`, the `NaN` that
`parseInt` yields on a digit-free string, or an integer. -/
inductive JsNumOpt where
  | null
  | nan
  | int (n : Int)
deriving DecidableEq

/-- Is a JSON number lexeme the number zero (`0`, `-0.00`, `0e7`, ...)? -/
def jsonNumIsZero (lex : String) : Bool :=
  (lex.data.takeWhile (fun c => c ≠ 'e' && c ≠ 'E')).all
    (fun c => !c.isDigit || c = '0')

/-- JS truthiness of a parsed JSON value. -/
def jsTruthy : Json → Bool
  | .null => false
  | .bool b => b
  | .num lex => !jsonNumIsZero lex
  | .str s => s ≠ ""
  | .arr _ => true
  | .obj _ => true

mutual

/-- JS `String(value)` on a parsed JSON value. Number lexemes are
rendered as written, which agrees with JS for the literals without an
exponent that arise here. -/
def jsToString : Json → String
  | .null => "null"
  | .bool true => "true"
  | .bool false => "false"
  | .num lex => lex
  | .str s => s
  | .arr es => jsArrToString es
  | .obj _ => "[object Object]"

/-- JS `Array.prototype.toString`: elements joined with commas, `null`
elements rendered empty. -/
def jsArrToString : List Json → String
  | [] => ""
  | e :: es =>
    let s := match e with | .null => "" | _ => jsToString e
    match es with
    | [] => s
    | _ => s ++ "," ++ jsArrToString es

end

/-- JS property access `parsed[key]` on a `JSON.parse` result: `none` is
`undefined`. Duplicate keys keep the last binding, as `JSON.parse` does. -/
def jlookup (j : Json) (key : String) : Option Json :=
  match j with
  | .obj ms => (ms.reverse.find? (fun kv => kv.1 = key)).map (fun kv => kv.2)
  | _ => none

/-- JS `v || null`: a falsy value collapses to `null`. -/
def jsOrNull (v : Option Json) : Option Json :=
  match v with
  | some x => if jsTruthy x then some x else none
  | none => none

/-- JS `v ? parseInt(v) : null` (part_001 lines 287 and 290). -/
def jsParseIntNum (v : Option Json) : JsNumOpt :=
  match v with
  | some x =>
    if jsTruthy x then
      match jsParseInt (jsToString x).data with
      | some n => .int n
      | none => .nan
    else .null
  | none => .null

/-- The record `parseGeminiResponse` returns: cleaned fields plus the
fixed source tag. Field values are the (truthy) JSON values kept by
`|| null`. -/
structure GeminiBookInfo where
  title : Option Json
  author : Option Json
  isbn : Option Json
  publisher : Option Json
  year : JsNumOpt
  description : Option Json
  category : Option Json
  confidence : JsNumOpt
  source : String

/-- The validate-and-clean step on a successfully parsed JSON value
(part_001 282-292). -/
def geminiNormalize (parsed : Json) : GeminiBookInfo :=
  { title := jsOrNull (jlookup parsed "title")
    author := jsOrNull (jlookup parsed "author")
    isbn := jsOrNull (jlookup parsed "isbn")
    publisher := jsOrNull (jlookup parsed "publisher")
    year := jsParseIntNum (jlookup parsed "year")
    description := jsOrNull (jlookup parsed "description")
    category := jsOrNull (jlookup parsed "category")
    confidence := jsParseIntNum (jlookup parsed "confidence")
    source := "gemini_ai" }

/-- The fixed low-confidence record `fallbackTextParsing` starts from,
and returns unchanged when no line matches (part_001 310-320). -/
def geminiPlaceholder : GeminiBookInfo :=
  { title := none
    author := none
    isbn := none
    publisher := none
    year := .null
    description := none
    category := none
    confidence := .int 50
    source := "gemini_ai" }

/-- Truthiness of a stored extracted field (`!bookInfo.title` guards). -/
def jfieldTruthy (o : Option Json) : Bool :=
  match o with
  | some v => jsTruthy v
  | none => false

/-- Truthiness of the stored `year`/`confidence` (`!bookInfo.year`). -/
def jsNumTruthy : JsNumOpt → Bool
  | .int n => n ≠ 0
  | _ => false

/-- JS `line.split(':')[1]?.trim() || null`. -/
def splitSecondTrimmed (line : String) : Option Json :=
  match (strSplitOnChar ':' line).get? 1 with
  | some s =>
    let t := jsTrim s
    if t = "" then none else some (.str t)
  | none => none

/-- The JS regex `line.match(/\d\x7b4\x7d/)`: the earliest run of four
consecutive decimal digits. -/
def findFourDigits : List Char → Option (List Char)
  | c1 :: c2 :: c3 :: c4 :: r =>
    if c1.isDigit && c2.isDigit && c3.isDigit && c4.isDigit then some [c1, c2, c3, c4]
    else findFourDigits (c2 :: c3 :: c4 :: r)
  | _ => none

/-- One line of `fallbackTextParsing`'s loop (part_001 323-340): the
first `key:`-bearing branch whose field is still falsy fires. -/
def fallbackStep (bookInfo : GeminiBookInfo) (line : String) : GeminiBookInfo :=
  let lowerLine := jsToLower line
  if strIncludes lowerLine "title:" && !jfieldTruthy bookInfo.title then
    { bookInfo with title := splitSecondTrimmed line }
  else if strIncludes lowerLine "author:" && !jfieldTruthy bookInfo.author then
    { bookInfo with author := splitSecondTrimmed line }
  else if strIncludes lowerLine "isbn:" && !jfieldTruthy bookInfo.isbn then
    { bookInfo with isbn := splitSecondTrimmed line }
  else if strIncludes lowerLine "publisher:" && !jfieldTruthy bookInfo.publisher then
    { bookInfo with publisher := splitSecondTrimmed line }
  else if strIncludes lowerLine "year:" && !jsNumTruthy bookInfo.year then
    { bookInfo with
        year :=
          match findFourDigits line.data with
          | some ds => .int (digitsToNat ds : Int)
          | none => .null }
  else if strIncludes lowerLine "category:" && !jfieldTruthy bookInfo.category then
    { bookInfo with category := splitSecondTrimmed line }
  else bookInfo

/-- The function `GeminiService.fallbackTextParsing` (part_001 308-343): scan the
response line by line, filling each field at most once. -/
def fallbackTextParsing (responseText : String) : GeminiBookInfo :=
  (strSplitOnChar '\n' responseText).foldl fallbackStep geminiPlaceholder

/-- The JSON tier of `parseGeminiResponse`: the greedy brace span, when
it exists and `JSON.parse` accepts it. -/
def jsonExtract (responseText : String) : Option Json :=
  match greedyBraceMatch responseText.data with
  | some m => parseJson m
  | none => none

/-- The function `GeminiService.parseGeminiResponse` (part_001 273-301): the JSON
tier when the regex matches and parses (a parse failure lands in the
`catch`), otherwise the line-oriented fallback. -/
def parseGeminiResponse (responseText : String) : GeminiBookInfo :=
  match jsonExtract responseText with
  | some parsed => geminiNormalize parsed
  | none => fallbackTextParsing responseText

/-! ### Shared helper lemmas -/

/-- Dropping while a predicate holds skips a block that satisfies it
throughout. -/
theorem dropWhile_append_all {α : Type} {p : α → Bool} {l₁ : List α}
    (h : ∀ a ∈ l₁, p a = true) (l₂ : List α) :
    (l₁ ++ l₂).dropWhile p = l₂.dropWhile p := by
  induction l₁ with
  | nil => rfl
  | cons a t ih =>
    simp only [List.cons_append, List.dropWhile_cons, h a (by simp)]
    exact ih (fun x hx => h x (by simp [hx]))

/-- A filter clause built from a disabled (`"all"`) field never fires, so
`itemPassesFilters` with only the difficulty filter active reduces to the
difficulty clause. -/
theorem itemPassesFilters_difficulty_only (b : String) (hb : b ≠ "all")
    (item : LibraryItem) :
    itemPassesFilters { allFiltersOff with difficulty := b } item
      = !difficultyRejects b item.difficulty := by
  simp [itemPassesFilters, allFiltersOff, hb]

/-- With only the rating filter active, `itemPassesFilters` reduces to
the rating clause. -/
theorem itemPassesFilters_rating_only (r : String) (hr : r ≠ "all")
    (item : LibraryItem) :
    itemPassesFilters { allFiltersOff with rating := r } item
      = !ratingRejects r item.rating := by
  simp [itemPassesFilters, allFiltersOff, hr]

/-! ### C3: the all-"all" configuration is the identity filter -/

/-- C3. When every one of the six filter fields is the sentinel `"all"`,
`applyFilters` returns the collection unchanged in content and relative
order (and, being `Array.prototype.filter`, it returns a fresh array and
never mutates its input — immediate in this pure embedding). -/
theorem applyFilters_all_off_identity (items : List LibraryItem) :
    applyFilters allFiltersOff items = items := by
  apply List.filter_eq_self.mpr
  intro a _
  rfl

/-! ### C1: the rating threshold filter

The claim says an item passes iff its rating is present and `≥ T`, and
in particular that a rating of `0` passes when `T = 0`. The code's test
is `!item.rating || item.rating < threshold`, and `0` is falsy in JS, so
a zero rating is treated like an absent one and is always excluded: the
claim fails at `T = 0`. The corrected characterization adds "nonzero". -/

/-- C1 (counterexample): with the rating filter set to `"0"` (threshold
`T = 0`), an item whose rating is present and equal to `0` satisfies
`rating ≥ T`, yet `applyFilters` drops it — the result is empty, not the
one-item list the claim requires. -/
theorem applyFilters_rating_zero_counterexample :
    jsParseInt ("0".data) = some 0
      ∧ ({ id := .num 1, rating := some 0 } : LibraryItem).rating = some (0 : Rat)
      ∧ mkRat 0 1 ≤ (0 : Rat)
      ∧ applyFilters { allFiltersOff with rating := "0" }
          [{ id := .num 1, rating := some 0 }] = [] := by
  refine ⟨rfl, rfl, by decide, rfl⟩

/-- C1 (as amended): for an active rating filter whose string parses to
the integer threshold `T` (all other filters `"all"`), the result is
exactly the subsequence of items whose rating is present, nonzero, and
`≥ T`; items with an absent — or zero — rating are excluded. -/
theorem applyFilters_rating_threshold_truthy (r : String) (T : Int)
    (hT : jsParseInt r.data = some T) (items : List LibraryItem) :
    applyFilters { allFiltersOff with rating := r } items
      = items.filter (fun item =>
          match item.rating with
          | some q => decide (q ≠ 0 ∧ mkRat T 1 ≤ q)
          | none => false) := by
  have hr : r ≠ "all" := by
    intro h
    subst h
    have hnone : jsParseInt ("all".data) = none := rfl
    rw [hnone] at hT
    exact Option.noConfusion hT
  apply List.filter_congr
  intro item _
  rw [itemPassesFilters_rating_only r hr item]
  cases hq : item.rating with
  | none => simp [ratingRejects]
  | some q =>
    by_cases h0 : q = 0
    · simp [ratingRejects, h0]
    · simp only [ratingRejects, h0, if_false, hT]
      simp [h0, ← decide_not, not_lt]

/-- C1 witness: threshold `2` keeps exactly the items rated `≥ 2`
(here `5/2`), dropping the zero-rated, the unrated and the `1`-rated
item. -/
theorem applyFilters_rating_threshold_truthy_witness :
    jsParseInt ("2".data) = some 2
      ∧ applyFilters { allFiltersOff with rating := "2" }
          [{ id := .num 1, rating := some (mkRat 5 2) },
           { id := .num 2, rating := some 0 },
           { id := .num 3 },
           { id := .num 4, rating := some 1 }]
        = [{ id := .num 1, rating := some (mkRat 5 2) }] := by
  refine ⟨rfl, ?_⟩
  rw [applyFilters_rating_threshold_truthy "2" 2 rfl]
  rfl

/-! ### C6: the difficulty buckets -/

/-- C6. With an active difficulty filter, an item passes iff its
difficulty is present and lies in the selected bucket's inclusive range:
easy `1..3`, medium `4..7`, hard `8..10` — exactly as coded, even though
the declared difficulty domain elsewhere is `1..5`. (A present difficulty
of `0` is falsy in JS and rejected, which agrees with the ranges, since
no bucket contains `0`.) -/
theorem difficulty_bucket_ranges (item : LibraryItem) :
    (itemPassesFilters { allFiltersOff with difficulty := "easy" } item = true ↔
        ∃ n, item.difficulty = some n ∧ 1 ≤ n ∧ n ≤ 3)
      ∧ (itemPassesFilters { allFiltersOff with difficulty := "medium" } item = true ↔
        ∃ n, item.difficulty = some n ∧ 4 ≤ n ∧ n ≤ 7)
      ∧ (itemPassesFilters { allFiltersOff with difficulty := "hard" } item = true ↔
        ∃ n, item.difficulty = some n ∧ 8 ≤ n ∧ n ≤ 10) := by
  refine ⟨?_, ?_, ?_⟩ <;>
    rw [itemPassesFilters_difficulty_only _ (by decide) item] <;>
    cases hd : item.difficulty with
    | none => simp [difficultyRejects]
    | some n =>
      by_cases h0 : n = 0
      · subst h0
        simp [difficultyRejects]
        try omega
      · simp [difficultyRejects, h0]
        try omega

/-- C6 witness: a difficulty of `2` passes the `easy` bucket. -/
theorem difficulty_bucket_ranges_witness :
    itemPassesFilters { allFiltersOff with difficulty := "easy" }
      { id := .num 1, difficulty := some 2 } = true :=
  (difficulty_bucket_ranges { id := .num 1, difficulty := some 2 }).1.mpr
    ⟨2, rfl, by decide, by decide⟩

/-! ### C4: what an empty query yields at the two search call sites

The claim says the library search (`performSearch`) yields the
unfiltered collection on an empty query. It does not: an empty (falsy)
search term returns early with the "Enter a search term" prompt, and no
item list is rendered. The overlay search does clear every highlight, as
claimed. -/

/-- C4 (counterexample): on the empty query the library search shows the
instructional prompt, which is not the unfiltered one-item collection
the claim requires. -/
theorem performSearch_empty_query_counterexample :
    performSearch "" [{ id := .num 1, title := some "Dune" }] = .ok .prompt
      ∧ SearchDisplay.prompt ≠ .results [{ id := .num 1, title := some "Dune" }] := by
  exact ⟨rfl, by decide⟩

/-- C4 (as amended): on an empty query the library search returns early
with the instructional prompt (rendering no items, in particular not the
unfiltered collection), while the overlay search clears the
`search-match` flag of every item; a whitespace-only overlay query
behaves the same, and a whitespace-only library-search input reaches
`performSearch` as the empty string because the input handler trims it.
The two call sites differ in exactly this prompt-versus-unhighlight way. -/
theorem search_empty_query_states :
    (∀ items, performSearch "" items = .ok .prompt)
      ∧ (∀ raw, jsTrim (jsToLower raw) = "" →
          ∀ items, performSearch (searchInputValue raw) items = .ok .prompt)
      ∧ (∀ q, jsTrim q = "" →
          ∀ items, performOverlaySearch q items = items.map (fun _ => false)) := by
  refine ⟨fun items => rfl, ?_, ?_⟩
  · intro raw hraw items
    rw [searchInputValue, hraw]
    rfl
  · intro q hq items
    rw [performOverlaySearch, hq]
    simp

/-- C4 witness: the whitespace-only input `" "` prompts in the library
search and un-highlights both items in the overlay search. -/
theorem search_empty_query_states_witness :
    performSearch "" [{ id := .num 1 }] = .ok .prompt
      ∧ jsTrim (jsToLower " ") = ""
      ∧ performSearch (searchInputValue " ") [{ id := .num 1 }] = .ok .prompt
      ∧ jsTrim " " = ""
      ∧ performOverlaySearch " " [{ id := .num 1 }, { id := .num 2 }] = [false, false] :=
  ⟨search_empty_query_states.1 _, rfl,
    search_empty_query_states.2.1 " " rfl _, rfl,
    search_empty_query_states.2.2 " " rfl _⟩

/-! ### C5: absent fields — non-matches in the filter, but a `TypeError`
in `performSearch`

`applyFilters` guards every field access (`!==` comparisons and explicit
falsiness checks), so an absent field is a non-match and nothing throws;
that part of the claim holds. `performSearch`, however, calls
`.toLowerCase()` on `item.title/.author/.category/.type` without a
guard, so the claim's own example — a non-empty query over a collection
with an author-less item — throws a `TypeError` as soon as the
`||`-chain reaches the missing field. -/

/-- C5 (counterexample): `performSearch` on the non-empty query `"zz"`
over a collection containing an item with no author field raises a
`TypeError` (the item's title does not match, so the `||`-chain reaches
`item.author.toLowerCase()`), contradicting the claim's "completes
without raising". -/
theorem performSearch_missing_author_throws :
    performSearch "zz" [{ id := .num 1, title := some "Dune" }] = .error .typeError := rfl

/-- Every item of `l` passing the throwing predicate makes `filterExcept`
succeed. -/
theorem filterExcept_ok {α ε : Type} (p : α → Except ε Bool) :
    ∀ l : List α, (∀ a ∈ l, ∃ b, p a = .ok b) → ∃ res, filterExcept p l = .ok res := by
  intro l
  induction l with
  | nil => exact fun _ => ⟨[], rfl⟩
  | cons a t ih =>
    intro h
    obtain ⟨b, hb⟩ := h a (by simp)
    obtain ⟨res, hres⟩ := ih (fun x hx => h x (by simp [hx]))
    exact ⟨if b then a :: res else res, by simp [filterExcept, hb, hres]⟩

/-- The search predicate cannot throw on an item whose four searched
fields are all present. -/
theorem searchMatches_ok (q : String) (item : LibraryItem)
    (ht : item.title.isSome) (ha : item.author.isSome)
    (hc : item.category.isSome) (hty : item.type.isSome) :
    ∃ b, searchMatches q item = .ok b := by
  obtain ⟨t, ht⟩ := Option.isSome_iff_exists.mp ht
  obtain ⟨a, ha⟩ := Option.isSome_iff_exists.mp ha
  obtain ⟨c, hc⟩ := Option.isSome_iff_exists.mp hc
  obtain ⟨ty, hty⟩ := Option.isSome_iff_exists.mp hty
  simp only [searchMatches, ht, ha, hc, hty]
  split_ifs <;> exact ⟨_, rfl⟩

/-- C5 (as amended): in the structured filter an absent field is always a
non-match for an active constraint on it — for each of the six fields,
an item missing that field is excluded whenever that filter is active —
and `applyFilters` is a total function (no field access in it can throw:
every read is a guarded comparison). `performSearch` completes without
raising on every query whenever each item carries its four searched text
fields (title, author, category, type); with an absent field it can
instead throw a `TypeError`, as the counterexample shows. -/
theorem filters_absent_fields_and_search_no_throw :
    (∀ f item, f.type ≠ "all" → item.type = none →
        itemPassesFilters f item = false)
      ∧ (∀ f item, f.status ≠ "all" → item.status = none →
        itemPassesFilters f item = false)
      ∧ (∀ f item, f.rating ≠ "all" → item.rating = none →
        itemPassesFilters f item = false)
      ∧ (∀ f item, f.difficulty ≠ "all" → item.difficulty = none →
        itemPassesFilters f item = false)
      ∧ (∀ f item, f.language ≠ "all" → item.language = none →
        itemPassesFilters f item = false)
      ∧ (∀ f item, f.category ≠ "all" → item.category = none →
        itemPassesFilters f item = false)
      ∧ (∀ q items,
          (∀ item ∈ items, item.title.isSome ∧ item.author.isSome
            ∧ item.category.isSome ∧ item.type.isSome) →
          ∃ d, performSearch q items = .ok d) := by
  refine ⟨?_, ?_, ?_, ?_, ?_, ?_, ?_⟩
  · intro f item hf hnone
    simp [itemPassesFilters, hf, hnone]
  · intro f item hf hnone
    simp only [itemPassesFilters, hf, hnone]
    split_ifs <;> simp_all
  · intro f item hf hnone
    simp only [itemPassesFilters, hf, hnone, ratingRejects]
    split_ifs <;> simp_all
  · intro f item hf hnone
    simp only [itemPassesFilters, hf, hnone, difficultyRejects]
    split_ifs <;> simp_all
  · intro f item hf hnone
    simp only [itemPassesFilters, hf, hnone]
    split_ifs <;> simp_all
  · intro f item hf hnone
    simp only [itemPassesFilters, hf, hnone]
    split_ifs <;> simp_all
  · intro q items h
    by_cases hq : q = ""
    · exact ⟨.prompt, by simp [performSearch, hq]⟩
    · obtain ⟨res, hres⟩ := filterExcept_ok (searchMatches q) items
        (fun item hmem =>
          searchMatches_ok q item (h item hmem).1 (h item hmem).2.1
            (h item hmem).2.2.1 (h item hmem).2.2.2)
      refine ⟨if res.isEmpty then .noResults else .results res, ?_⟩
      simp [performSearch, hq, hres]

/-- C5 witness: an item missing its rating is excluded by an active
rating filter (and so on for the other fields), and a search over items
carrying all four text fields completes without raising. -/
theorem filters_absent_fields_and_search_no_throw_witness :
    itemPassesFilters { allFiltersOff with type := "book" } { id := .num 1 } = false
      ∧ itemPassesFilters { allFiltersOff with status := "read" } { id := .num 1 } = false
      ∧ itemPassesFilters { allFiltersOff with rating := "3" } { id := .num 1 } = false
      ∧ itemPassesFilters { allFiltersOff with difficulty := "easy" } { id := .num 1 } = false
      ∧ itemPassesFilters { allFiltersOff with language := "en" } { id := .num 1 } = false
      ∧ itemPassesFilters { allFiltersOff with category := "SF" } { id := .num 1 } = false
      ∧ ∃ d, performSearch "dune"
          [{ id := .num 1, title := some "Dune", author := some "Frank Herbert",
             category := some "SF", type := some "book" }] = .ok d :=
  ⟨filters_absent_fields_and_search_no_throw.1 _ _ (by decide) rfl,
    filters_absent_fields_and_search_no_throw.2.1 _ _ (by decide) rfl,
    filters_absent_fields_and_search_no_throw.2.2.1 _ _ (by decide) rfl,
    filters_absent_fields_and_search_no_throw.2.2.2.1 _ _ (by decide) rfl,
    filters_absent_fields_and_search_no_throw.2.2.2.2.1 _ _ (by decide) rfl,
    filters_absent_fields_and_search_no_throw.2.2.2.2.2.1 _ _ (by decide) rfl,
    filters_absent_fields_and_search_no_throw.2.2.2.2.2.2 "dune" _
      (by intro item hmem; simp at hmem; subst hmem; exact ⟨rfl, rfl, rfl, rfl⟩)⟩

/-! ### C7: ISBN selection prefers ISBN_13 over ISBN_10 -/

/-- C7. Both in the server-side `extractISBN` and in the frontend
`transformResults`: when the identifiers contain an `ISBN_13` entry its
identifier is selected (the first such entry); when there is no
`ISBN_13` entry but an `ISBN_10` entry, the `ISBN_10` identifier is
selected. The frontend chain uses `||`, so there the selected identifier
must be non-empty (a real ISBN always is) not to fall through. -/
theorem isbn_prefers_isbn13 :
    (∀ (ids : List IndustryIdentifier) e,
        ids.find? (fun i => i.type = "ISBN_13") = some e →
        extractISBN (some ids) = some e.identifier)
      ∧ (∀ (ids : List IndustryIdentifier) e,
        ids.find? (fun i => i.type = "ISBN_13") = none →
        ids.find? (fun i => i.type = "ISBN_10") = some e →
        extractISBN (some ids) = some e.identifier)
      ∧ (∀ (ids : List IndustryIdentifier) e,
        ids.find? (fun i => i.type = "ISBN_13") = some e →
        e.identifier ≠ "" →
        transformResultsIsbn (some ids) = e.identifier)
      ∧ (∀ (ids : List IndustryIdentifier) e,
        ids.find? (fun i => i.type = "ISBN_13") = none →
        ids.find? (fun i => i.type = "ISBN_10") = some e →
        e.identifier ≠ "" →
        transformResultsIsbn (some ids) = e.identifier) := by
  refine ⟨?_, ?_, ?_, ?_⟩
  · intro ids e h13
    simp [extractISBN, h13]
  · intro ids e h13 h10
    simp [extractISBN, h13, h10]
  · intro ids e h13 hne
    simp [transformResultsIsbn, h13, hne]
  · intro ids e h13 h10 hne
    simp [transformResultsIsbn, h13, h10, hne]

/-- C7 witness: with both identifier kinds present the `ISBN_13` value
`"9780441013593"` is selected by both implementations; with only an
`ISBN_10` entry its value is selected. -/
theorem isbn_prefers_isbn13_witness :
    extractISBN (some [⟨"ISBN_10", "0441013597"⟩, ⟨"ISBN_13", "9780441013593"⟩])
        = some "9780441013593"
      ∧ extractISBN (some [⟨"ISBN_10", "0441013597"⟩]) = some "0441013597"
      ∧ transformResultsIsbn (some [⟨"ISBN_10", "0441013597"⟩, ⟨"ISBN_13", "9780441013593"⟩])
        = "9780441013593"
      ∧ transformResultsIsbn (some [⟨"ISBN_10", "0441013597"⟩]) = "0441013597" :=
  ⟨isbn_prefers_isbn13.1 _ ⟨"ISBN_13", "9780441013593"⟩ (by decide),
    isbn_prefers_isbn13.2.1 _ ⟨"ISBN_10", "0441013597"⟩ (by decide) (by decide),
    isbn_prefers_isbn13.2.2.1 _ ⟨"ISBN_13", "9780441013593"⟩ (by decide) (by decide),
    isbn_prefers_isbn13.2.2.2 _ ⟨"ISBN_10", "0441013597"⟩ (by decide) (by decide) (by decide)⟩

/-! ### C9 and C10: deletion -/

/-- The search `jsFindIndex` misses exactly when no element satisfies the predicate. -/
theorem jsFindIndex_eq_none_iff {α : Type} (p : α → Bool) :
    ∀ l : List α, jsFindIndex p l = none ↔ ∀ x ∈ l, p x = false := by
  intro l
  induction l with
  | nil => simp [jsFindIndex]
  | cons a t ih =>
    by_cases hpa : p a = true
    · simp [jsFindIndex, hpa]
    · simp only [Bool.not_eq_true] at hpa
      simp [jsFindIndex, hpa, ih]

/-- Splicing out the index found by `findIndex` removes exactly the first
match, which under at-most-one match equals filtering the match out. -/
theorem splice_findIndex_eq_filter {α : Type} (p : α → Bool) :
    ∀ l : List α, List.countP p l ≤ 1 →
      (match jsFindIndex p l with
        | none => l
        | some i => l.take i ++ l.drop (i + 1)) = l.filter (fun a => !p a) := by
  intro l
  induction l with
  | nil => intro _; rfl
  | cons a t ih =>
    intro hcount
    rw [List.countP_cons] at hcount
    by_cases hpa : p a = true
    · have ht0 : List.countP p t = 0 := by
        simp only [hpa, if_true] at hcount
        omega
      have hkeep : t.filter (fun a => !p a) = t :=
        List.filter_eq_self.mpr fun x hx => by
          simp [List.countP_eq_zero.mp ht0 x hx]
      simp [jsFindIndex, hpa, List.filter_cons, hkeep]
    · have hcount' : List.countP p t ≤ 1 := by omega
      have hrec := ih hcount'
      cases hfi : jsFindIndex p t with
      | none =>
        have hrec2 : t = t.filter (fun a => !p a) := by
          rw [hfi] at hrec
          exact hrec
        simp [jsFindIndex, hpa, hfi, List.filter_cons, ← hrec2]
      | some j =>
        have hrec2 : t.take j ++ t.drop (j + 1) = t.filter (fun a => !p a) := by
          rw [hfi] at hrec
          exact hrec
        simp [jsFindIndex, hpa, hfi, List.filter_cons, List.take_succ_cons,
          List.drop_succ_cons, hrec2]

/-- C9. In the unauthenticated (local) path, deleting an id that exactly
one item carries removes exactly that item: the result is the original
collection with the one matching item filtered out, every other item
kept in its original relative order. -/
theorem deleteLibraryItem_removes_exactly (items : List LibraryItem)
    (itemId : JsId) (remoteOk : Bool)
    (huniq : List.countP (fun item => item.id = itemId) items = 1) :
    deleteLibraryItem items itemId false remoteOk
      = (items.filter (fun item => item.id ≠ itemId), .deleted) := by
  have hsplice := splice_findIndex_eq_filter
    (fun item : LibraryItem => item.id = itemId) items (by omega)
  have hpos : 0 < List.countP (fun item : LibraryItem => decide (item.id = itemId)) items := by
    omega
  obtain ⟨x, hx, hpx⟩ := List.countP_pos_iff.mp hpos
  have hpred : (fun item : LibraryItem => decide (item.id ≠ itemId))
      = fun item => !decide (item.id = itemId) := by
    funext item
    by_cases h : item.id = itemId <;> simp [h]
  cases hfi : jsFindIndex (fun item : LibraryItem => decide (item.id = itemId)) items with
  | none =>
    have := (jsFindIndex_eq_none_iff _ items).mp hfi x hx
    simp [this] at hpx
  | some i =>
    have hsp : items.take i ++ items.drop (i + 1)
        = items.filter (fun item => !decide (item.id = itemId)) := by
      rw [hfi] at hsplice
      exact hsplice
    simp only [deleteLibraryItem, hfi, Bool.false_and, Bool.false_eq_true,
      if_false, hsp, hpred]

/-- C9 witness: deleting id `2` from a three-item collection removes the
middle item and keeps the outer two in order. -/
theorem deleteLibraryItem_removes_exactly_witness :
    List.countP (fun item : LibraryItem => item.id = .num 2)
        [{ id := .num 1 }, { id := .num 2 }, { id := .num 3 }] = 1
      ∧ deleteLibraryItem [{ id := .num 1 }, { id := .num 2 }, { id := .num 3 }]
          (.num 2) false true
        = ([{ id := .num 1 }, { id := .num 3 }], .deleted) := by
  refine ⟨by decide, ?_⟩
  rw [deleteLibraryItem_removes_exactly _ _ _ (by decide)]
  rfl

/-- C10. Delete is atomic on failure: an id that matches no item returns
early with the not-found notification and the collection unchanged, and
an authenticated session whose remote delete fails returns early with
the error notification and the collection unchanged — in neither case is
any item removed locally. -/
theorem deleteLibraryItem_failure_atomic :
    (∀ items itemId authed remoteOk,
        jsFindIndex (fun item : LibraryItem => item.id = itemId) items = none →
        deleteLibraryItem items itemId authed remoteOk = (items, .notFound))
      ∧ (∀ items itemId i,
        jsFindIndex (fun item : LibraryItem => item.id = itemId) items = some i →
        deleteLibraryItem items itemId true false = (items, .remoteError)) := by
  constructor
  · intro items itemId authed remoteOk hnone
    simp [deleteLibraryItem, hnone]
  · intro items itemId i hsome
    simp [deleteLibraryItem, hsome]

/-- C10 witness: deleting the absent id `9` changes nothing, and an
authenticated delete whose remote call fails changes nothing. -/
theorem deleteLibraryItem_failure_atomic_witness :
    deleteLibraryItem [{ id := .num 1 }, { id := .num 2 }] (.num 9) false true
        = ([{ id := .num 1 }, { id := .num 2 }], .notFound)
      ∧ deleteLibraryItem [{ id := .num 1 }, { id := .num 2 }] (.num 2) true false
        = ([{ id := .num 1 }, { id := .num 2 }], .remoteError) :=
  ⟨deleteLibraryItem_failure_atomic.1 _ _ _ _ rfl,
    deleteLibraryItem_failure_atomic.2 _ _ 1 rfl⟩

/-! ### C8: the fixed placeholder on fully unparseable Gemini output -/

/-- The six `key:` markers `fallbackTextParsing` scans lines for. -/
def geminiKeys : List String :=
  ["title:", "author:", "isbn:", "publisher:", "year:", "category:"]

/-- A line containing none of the six key markers leaves the fold state
unchanged, so key-free text keeps the placeholder. -/
theorem foldl_fallbackStep_placeholder (ls : List String)
    (h : ∀ line ∈ ls, ∀ key ∈ geminiKeys, strIncludes (jsToLower line) key = false) :
    ls.foldl fallbackStep geminiPlaceholder = geminiPlaceholder := by
  induction ls with
  | nil => rfl
  | cons line rest ih =>
    have h6 := h line (by simp)
    have hstep : fallbackStep geminiPlaceholder line = geminiPlaceholder := by
      simp [fallbackStep,
        h6 "title:" (by simp [geminiKeys]),
        h6 "author:" (by simp [geminiKeys]),
        h6 "isbn:" (by simp [geminiKeys]),
        h6 "publisher:" (by simp [geminiKeys]),
        h6 "year:" (by simp [geminiKeys]),
        h6 "category:" (by simp [geminiKeys])]
    rw [List.foldl_cons, hstep]
    exact ih (fun l hl k hk => h l (by simp [hl]) k hk)

/-- C8. On response text whose brace span yields no parseable JSON and
whose lines contain none of the recognized `key:` markers, normalization
returns the fixed low-confidence placeholder (all extracted fields null,
confidence 50, source `"gemini_ai"`) — and, being a total function in
this embedding, it does not raise. -/
theorem gemini_no_json_no_keys_placeholder (text : String)
    (hjson : jsonExtract text = none)
    (hlines : ∀ line ∈ strSplitOnChar '\n' text, ∀ key ∈ geminiKeys,
        strIncludes (jsToLower line) key = false) :
    parseGeminiResponse text = geminiPlaceholder := by
  simp only [parseGeminiResponse, hjson, fallbackTextParsing]
  exact foldl_fallbackStep_placeholder _ hlines

/-- C8 witness: a braceless, key-free refusal message maps to the
placeholder. -/
theorem gemini_no_json_no_keys_placeholder_witness :
    jsonExtract "I cannot identify this book cover" = none
      ∧ (∀ line ∈ strSplitOnChar '\n' "I cannot identify this book cover",
          ∀ key ∈ geminiKeys, strIncludes (jsToLower line) key = false)
      ∧ parseGeminiResponse "I cannot identify this book cover" = geminiPlaceholder :=
  ⟨rfl, by decide,
    gemini_no_json_no_keys_placeholder "I cannot identify this book cover" rfl (by decide)⟩

/-! ### C2: what span the Gemini JSON regex actually extracts

The claim says `parseGeminiResponse` locates the **first balanced**
`\x7b...\x7d` span, even when prose after the JSON object contains
further `\x7d` characters. The regex `/\x7b[\s\S]*\x7d/` is greedy: it
runs from the first `\x7b` to the **last** `\x7d` of the whole text. When
the trailing prose contains a `\x7d`, the extracted span strictly extends
past the object, `JSON.parse` rejects it, and the fallback runs instead
of returning the object's fields — refuting the claim. When the
surrounding prose contains no interfering braces the span is exactly the
object and the claim's extraction behavior holds; that is the corrected
statement proved below. -/

/-- C2 (counterexample): the response text contains the valid JSON object
`\x7b"title": "Dune"\x7d` followed by prose with a further `\x7d`. The
claim requires the object's fields (title `"Dune"`); the code's greedy
span fails to parse, the fallback finds no `key:` lines, and the
placeholder (title `null`) is returned instead. -/
theorem parseGeminiResponse_trailing_brace_counterexample :
    parseJson ("\x7b\"title\": \"Dune\"\x7d".data) = some (.obj [("title", .str "Dune")])
      ∧ strIncludes "Here is \x7b\"title\": \"Dune\"\x7d extra\x7d" "\x7b\"title\": \"Dune\"\x7d" = true
      ∧ (geminiNormalize (.obj [("title", .str "Dune")])).title = some (.str "Dune")
      ∧ parseGeminiResponse "Here is \x7b\"title\": \"Dune\"\x7d extra\x7d" = geminiPlaceholder
      ∧ geminiPlaceholder.title = none :=
  ⟨rfl, rfl, rfl, rfl, rfl⟩

/-- The greedy brace regex on `prose₁ ++ span ++ prose₂`, where the span
runs from a `\x7b` to a `\x7d`, `prose₁` has no `\x7b` and `prose₂` no
`\x7d`: the match is exactly the span. -/
theorem greedyBraceMatch_extract (pre mid post : List Char)
    (hpre : ∀ c ∈ pre, c ≠ '{') (hpost : ∀ c ∈ post, c ≠ '}') :
    greedyBraceMatch (pre ++ ('{' :: (mid ++ ['}'])) ++ post)
      = some ('{' :: (mid ++ ['}'])) := by
  have h1 : (pre ++ ('{' :: (mid ++ ['}'])) ++ post).dropWhile (fun c => c ≠ '{')
      = ('{' :: (mid ++ ['}'])) ++ post := by
    rw [List.append_assoc,
      dropWhile_append_all (fun a ha => by simp [hpre a ha]) _]
    simp [List.dropWhile_cons]
  have h2 : upToLastBrace (('{' :: (mid ++ ['}'])) ++ post)
      = '{' :: (mid ++ ['}']) := by
    rw [upToLastBrace, List.reverse_append,
      dropWhile_append_all (fun a ha => by
        simp [hpost a (List.mem_reverse.mp ha)])]
    simp [List.reverse_cons, List.reverse_append, List.dropWhile_cons]
  rw [greedyBraceMatch, h1, h2]
  simp

/-- C2 (as amended): `parseGeminiResponse` extracts the greedy span from
the first `\x7b` of the text to its last `\x7d` — not the first balanced
span — parses it, and returns exactly the parsed object's fields (title,
author, isbn, publisher, year, description, category, confidence,
cleaned by the falsy-to-null and `parseInt` steps). In particular, when
the prose before a valid JSON object span contains no `\x7b` and the
prose after it contains no `\x7d`, the span is exactly that object and
its fields are returned; prose containing a further `\x7d` after the
object instead makes the greedy span unparseable and the fallback run,
as the counterexample shows. -/
theorem parseGeminiResponse_embedded_json (pre mid post : List Char) (obj : Json)
    (hpre : ∀ c ∈ pre, c ≠ '{') (hpost : ∀ c ∈ post, c ≠ '}')
    (hparse : parseJson ('{' :: (mid ++ ['}'])) = some obj) :
    parseGeminiResponse ⟨pre ++ ('{' :: (mid ++ ['}'])) ++ post⟩
      = geminiNormalize obj := by
  have hdata : (⟨pre ++ ('{' :: (mid ++ ['}'])) ++ post⟩ : String).data
      = pre ++ ('{' :: (mid ++ ['}'])) ++ post := rfl
  simp only [parseGeminiResponse, jsonExtract, hdata,
    greedyBraceMatch_extract pre mid post hpre hpost, hparse]

/-- C2 witness: prose around the object `\x7b"title": "Dune",
"confidence": 85\x7d` is ignored and exactly its fields come back. -/
theorem parseGeminiResponse_embedded_json_witness :
    (∀ c ∈ ("Sure! ".data), c ≠ '{')
      ∧ (∀ c ∈ (" enjoy".data), c ≠ '}')
      ∧ parseJson ('{' :: (("\"title\": \"Dune\", \"confidence\": 85".data) ++ ['}']))
          = some (.obj [("title", .str "Dune"), ("confidence", .num "85")])
      ∧ parseGeminiResponse
            ⟨"Sure! ".data
              ++ ('{' :: (("\"title\": \"Dune\", \"confidence\": 85".data) ++ ['}']))
              ++ " enjoy".data⟩
          = geminiNormalize (.obj [("title", .str "Dune"), ("confidence", .num "85")]) :=
  ⟨by decide, by decide, rfl,
    parseGeminiResponse_embedded_json _ _ _ _ (by decide) (by decide) rfl⟩

end EIH
